import Mathlib

/-!
Shallow embedding of the single-job GitHub worker (Go package `p`, a Pub/Sub
Cloud Function) and its `worker_error` package, together with proofs about the
job pipeline: stage ordering, cleanup, storage materialization, error wrapping
and the single-flight process initialization.

Modelling conventions:
* Go `error` interface values are `Option GoErr` (`none` is the nil error);
  `GoErr` covers the concrete error shapes the worker produces or receives:
  `simple` is an error whose dynamic type has no exported fields (such as
  `errors.errorString` from `errors.New` / `fmt.Errorf` / `context.Canceled`),
  `exitError` is `exec.ExitError` (exit code, captured stderr),
  `pathError` is `os.PathError` (exported fields `Op`, `Path`, `Err` where
  `Err` is a numeric errno), and `wrapped` is `worker_error.err` with its
  exported fields `Err` (the cause) and `Extra`.
* `jsonOfGoErr` follows `encoding/json.Marshal` on those dynamic types:
  a struct with no exported fields marshals to `{}` (so the error text of a
  `simple` error is lost), `exec.ExitError` keeps only its exported `Stderr`
  byte slice (rendered base64), `os.PathError` keeps `Op`, `Path` and the
  numeric `Err`, and `worker_error.err` uses its `json:"err,omitempty"` /
  `json:"extra,omitempty"` tags.  `Marshal` never fails on these types, so
  `(err).Error()` always takes the JSON branch.  JSON string escaping is
  modelled for quote and backslash; control/HTML escaping is elided and no
  input in this development needs it.
* The filesystem is a set of existing paths (`List String`).  `os.Mkdir`
  fails with `EEXIST` iff the path exists; `os.RemoveAll` removes the path
  and everything under `<path>/`, and the environment says whether the
  removal primitive succeeds (the worker discards its error either way).
  A per-object copy (`_writeContentFromStorageToFile`: NewReader, MkdirAll,
  Create, io.Copy) is modelled at key granularity: on success it creates
  `/tmp/<key>`, on failure (any of its steps) it reports the error.
* External `git` invocations are modelled by their argument list and working
  directory plus an environment-chosen `ExecResult`; `cmd.Output()` returns
  the captured standard output and, on a non-zero exit, an `exec.ExitError`
  carrying the captured stderr (stdout and stderr are not combined).
* The paginated object listing (`Bucket.Objects` / `it.Next()`) is a
  sequence of yields, each either a key or a listing error; the sequence the
  store returns for the query prefix `Data.storageQuery` is supplied by the
  environment as `Env.listObjects`.
-/

namespace Worker

/-- Go error values relevant to the worker (see the module docstring). -/
inductive GoErr where
  | simple (msg : String)
  | exitError (code : Nat) (stderr : String)
  | pathError (op p : String) (errno : Nat) (msg : String)
  | wrapped (cause : Option GoErr) (extra : String)

/-- Base64 alphabet, for `encoding/json`'s rendering of `[]byte`. -/
def base64Table : List Char :=
  "ABCDEFGHIJKLMNOPQRSTUVWXYZabcdefghijklmnopqrstuvwxyz0123456789+/".data

def b64c (n : Nat) : Char := base64Table.getD (n % 64) 'A'

/-- Standard base64 of a byte sequence. -/
def base64Encode : List Nat → String
  | [] => ""
  | [b1] => String.mk [b64c (b1 / 4), b64c (b1 % 4 * 16), '=', '=']
  | [b1, b2] => String.mk [b64c (b1 / 4), b64c (b1 % 4 * 16 + b2 / 16), b64c (b2 % 16 * 4), '=']
  | b1 :: b2 :: b3 :: rest =>
      String.mk [b64c (b1 / 4), b64c (b1 % 4 * 16 + b2 / 16),
        b64c (b2 % 16 * 4 + b3 / 64), b64c (b3 % 64)] ++ base64Encode rest

def strBytes (s : String) : List Nat := s.toUTF8.toList.map (fun b => b.toNat)

/-- JSON string escaping (quote and backslash; see module docstring). -/
def jsonEscapeChar (c : Char) : String :=
  if c = '\\' then "\\\\" else if c = '"' then "\\\"" else String.singleton c

def jsonEscape (s : String) : String := String.join (s.data.map jsonEscapeChar)

def jsonStringLit (s : String) : String := "\"" ++ jsonEscape s ++ "\""

/-- `encoding/json.Marshal` on the dynamic type of a Go error value. -/
def jsonOfGoErr : GoErr → String
  | .simple _ => "\x7b\x7d"
  | .exitError _ stderr =>
      "\x7b\"Stderr\":" ++ jsonStringLit (base64Encode (strBytes stderr)) ++ "\x7d"
  | .pathError op p errno _ =>
      "\x7b\"Op\":" ++ jsonStringLit op ++ ",\"Path\":" ++ jsonStringLit p ++
        ",\"Err\":" ++ toString errno ++ "\x7d"
  | .wrapped none x =>
      if x = "" then "\x7b\x7d" else "\x7b\"extra\":" ++ jsonStringLit x ++ "\x7d"
  | .wrapped (some g) x =>
      if x = "" then "\x7b\"err\":" ++ jsonOfGoErr g ++ "\x7d"
      else ("\x7b\"err\":" ++ jsonOfGoErr g ++ ",") ++
        ("\"extra\":" ++ jsonStringLit x ++ "\x7d")

/-- The `Error()` method of a Go error value.  For `worker_error.err` this is
the `json.Marshal` rendering (`Marshal` succeeds on these types, so the
`fmt.Sprintf` fallback of the source is dead code in this model). -/
def goErrorText : GoErr → String
  | .simple m => m
  | .exitError code _ => "exit status " ++ toString code
  | .pathError op p _ m => op ++ " " ++ p ++ ": " ++ m
  | .wrapped c x => jsonOfGoErr (.wrapped c x)

/-- `strings.HasPrefix s pre` (Go), on the character lists. -/
def strStartsWith (s pre : String) : Bool := List.isPrefixOf pre.data s.data

/-- `strings.HasSuffix s suf` (Go), on the character lists. -/
def strEndsWith (s suf : String) : Bool := List.isSuffixOf suf.data s.data

/-- The decoded Pub/Sub job payload (`type Data struct`, all fields opaque
strings, none validated beyond deserialization). -/
structure Data where
  UserID : String
  GithubToken : String
  GithubUsername : String
  RepoName : String
  ProjectName : String
  FileName : String
  StorageFilePath : String
  CommitMessage : String

/-- `fmt.Sprintf("/tmp/%s", d.UserID)`. -/
def Data.localWorkingDir (d : Data) : String := "/tmp/" ++ d.UserID

/-- `fmt.Sprintf("%s/%s", d.localWorkingDir(), d.RepoName)`. -/
def Data.localRepoPath (d : Data) : String := d.localWorkingDir ++ "/" ++ d.RepoName

/-- `fmt.Sprintf("%s/%s", d.localRepoPath(), d.ProjectName)`. -/
def Data.localProjectPath (d : Data) : String := d.localRepoPath ++ "/" ++ d.ProjectName

/-- `fmt.Sprintf("%s/%s", d.ProjectName, d.FileName)`. -/
def Data.localRelativeFilePath (d : Data) : String := d.ProjectName ++ "/" ++ d.FileName

/-- `fmt.Sprintf("%s/%s", d.localRepoPath(), d.localRelativeFilePath())`. -/
def Data.localFilePath (d : Data) : String := d.localRepoPath ++ "/" ++ d.localRelativeFilePath

/-- The prefix of the storage query issued by `writeContentFromStorageToFile`:
`storage.Query{Prefix: d.UserID}`. -/
def Data.storageQuery (d : Data) : String := d.UserID

/-- Result of one external command: captured stdout, captured stderr, exit
code (`0` is success). -/
structure ExecResult where
  stdout : String
  stderr : String
  exitCode : Nat

/-- `cmd.Output()`: the captured standard output, and on a non-zero exit an
`exec.ExitError` whose `Stderr` field holds the captured standard error. -/
def gitOutput (r : ExecResult) : String × Option GoErr :=
  (r.stdout, if r.exitCode = 0 then none else some (.exitError r.exitCode r.stderr))

/-- A `git` invocation: argument list after the program name, and `cmd.Dir`. -/
structure GitCmd where
  args : List String
  dir : String
deriving DecidableEq

/-- The environment one `process` call runs against: initial filesystem,
exec results for each external tool invocation, the store's listing response
per query prefix, the per-object copy outcome, and whether the final
`os.RemoveAll` primitive succeeds. -/
structure Env where
  fs0 : List String
  cloneRes : ExecResult
  listObjects : String → List (Except GoErr String)
  copyErr : String → Option GoErr
  addRes : ExecResult
  commitRes : ExecResult
  pushRes : ExecResult
  removeOk : Bool

/-- The named steps of `process`, in source order, plus the deferred cleanup. -/
inductive Stage where
  | makeWorkingDir
  | cloneGithubRepo
  | writeContentFromStorageToFile
  | makeGitCommit
  | pushToRemote
  | cleanup
deriving DecidableEq, BEq, Repr

/-- `os.Mkdir(d.localWorkingDir(), os.ModePerm)`: fails with `EEXIST` iff the
directory already exists, otherwise creates it. -/
def Data.makeWorkingDir (d : Data) (fs : List String) : List String × Option GoErr :=
  if d.localWorkingDir ∈ fs then
    (fs, some (.pathError "mkdir" d.localWorkingDir 17 "file exists"))
  else (d.localWorkingDir :: fs, none)

/-- The clone invocation:
`git clone https://<token>@github.com/<username>/<repo>.git` with
`cmd.Dir = d.localWorkingDir()`. -/
def Data.cloneCmd (d : Data) : GitCmd :=
  { args := ["clone",
      "https://" ++ d.GithubToken ++ "@github.com/" ++ d.GithubUsername ++ "/" ++
        d.RepoName ++ ".git"],
    dir := d.localWorkingDir }

/-- `cloneGithubRepo`: on a non-zero exit, `worker_error.New(err, string(out))`
where `out` is the captured standard output of `cmd.Output()`. -/
def Data.cloneGithubRepo (d : Data) (res : ExecResult) : Option GoErr :=
  match gitOutput res with
  | (_, none) => none
  | (out, some e) => some (.wrapped (some e) out)

/-- The listing loop of `writeContentFromStorageToFile`: drain `it.Next()` to
`iterator.Done`, abort on the first listing error, and collect the yielded
keys that do not end in `"/"`, in enumeration order. -/
def collectFiles : List (Except GoErr String) → Except GoErr (List String)
  | [] => .ok []
  | .error e :: _ => .error e
  | .ok name :: rest =>
    match collectFiles rest with
    | .error e => .error e
    | .ok files => .ok (if strEndsWith name "/" then files else name :: files)

/-- The copy loop of `writeContentFromStorageToFile`: for each key in order,
run the per-object copy; on success the file exists at `/tmp/<key>`, on the
first failure return that error.  Returns (filesystem, keys processed, error). -/
def copyFiles (cErr : String → Option GoErr) (fs : List String) :
    List String → List String × List String × Option GoErr
  | [] => (fs, [], none)
  | f :: rest =>
    match cErr f with
    | some e => (fs, [f], some e)
    | none =>
      let r := copyFiles cErr (("/tmp/" ++ f) :: fs) rest
      (r.1, f :: r.2.1, r.2.2)

/-- `writeContentFromStorageToFile`: list everything under the query prefix,
then copy each kept key.  Returns (filesystem, keys processed, error). -/
def Data.writeContentFromStorageToFile (d : Data) (env : Env) (fs : List String) :
    List String × List String × Option GoErr :=
  match collectFiles (env.listObjects d.storageQuery) with
  | .error e => (fs, [], some e)
  | .ok files => copyFiles env.copyErr fs files

/-- `git add <project>/<file>` with `cmd.Dir = d.localRepoPath()`. -/
def Data.addCmd (d : Data) : GitCmd :=
  { args := ["add", d.localRelativeFilePath], dir := d.localRepoPath }

/-- `git commit -m <message>` with `cmd.Dir = d.localRepoPath()`. -/
def Data.commitCmd (d : Data) : GitCmd :=
  { args := ["commit", "-m", d.CommitMessage], dir := d.localRepoPath }

/-- `makeGitCommit`: `git add` then `git commit`, each wrapped with its
captured stdout on a non-zero exit; `commit` runs only if `add` succeeded. -/
def Data.makeGitCommit (d : Data) (addRes commitRes : ExecResult) : Option GoErr :=
  match gitOutput addRes with
  | (out, some e) => some (.wrapped (some e) out)
  | (_, none) =>
    match gitOutput commitRes with
    | (out, some e) => some (.wrapped (some e) out)
    | (_, none) => none

/-- `git push -u origin HEAD` with `cmd.Dir = d.localRepoPath()`. -/
def Data.pushCmd (d : Data) : GitCmd :=
  { args := ["push", "-u", "origin", "HEAD"], dir := d.localRepoPath }

/-- `pushToRemote`, wrapped like the other git steps. -/
def Data.pushToRemote (d : Data) (res : ExecResult) : Option GoErr :=
  match gitOutput res with
  | (_, none) => none
  | (out, some e) => some (.wrapped (some e) out)

/-- `os.RemoveAll p` on a succeeding removal: drop `p` and every path under
`p ++ "/"`. -/
def removeAll (p : String) (fs : List String) : List String :=
  fs.filter (fun q => !(q == p || strStartsWith q (p ++ "/")))

/-- `Data.cleanup`: `_ = os.RemoveAll(d.localWorkingDir())` — the removal
error is discarded; the filesystem loses the workspace tree iff the removal
primitive succeeds. -/
def Data.cleanup (d : Data) (fs : List String) (removeOk : Bool) : List String :=
  if removeOk then removeAll d.localWorkingDir fs else fs

/-- One `process` call's observable outcome: final filesystem, the stages
that ran (in execution order), and the returned error. -/
structure Outcome where
  fs : List String
  trace : List Stage
  ret : Option GoErr

def allStages : List Stage :=
  [.makeWorkingDir, .cloneGithubRepo, .writeContentFromStorageToFile,
   .makeGitCommit, .pushToRemote]

/-- The stage sequence of `process` (everything before the deferred cleanup):
each stage runs only if the previous returned nil, and the first stage error
is returned as `worker_error.New(err, "<stageName>")`. -/
def processBody (d : Data) (env : Env) : Outcome :=
  match (d.makeWorkingDir env.fs0).2 with
  | some e =>
      ⟨(d.makeWorkingDir env.fs0).1, [.makeWorkingDir],
        some (.wrapped (some e) "makeWorkingDir")⟩
  | none =>
    match d.cloneGithubRepo env.cloneRes with
    | some e =>
        ⟨(d.makeWorkingDir env.fs0).1, [.makeWorkingDir, .cloneGithubRepo],
          some (.wrapped (some e) "cloneGithubRepo")⟩
    | none =>
      match (d.writeContentFromStorageToFile env (d.makeWorkingDir env.fs0).1).2.2 with
      | some e =>
          ⟨(d.writeContentFromStorageToFile env (d.makeWorkingDir env.fs0).1).1,
            [.makeWorkingDir, .cloneGithubRepo, .writeContentFromStorageToFile],
            some (.wrapped (some e) "writeContentFromStorageToFile")⟩
      | none =>
        match d.makeGitCommit env.addRes env.commitRes with
        | some e =>
            ⟨(d.writeContentFromStorageToFile env (d.makeWorkingDir env.fs0).1).1,
              [.makeWorkingDir, .cloneGithubRepo, .writeContentFromStorageToFile,
               .makeGitCommit],
              some (.wrapped (some e) "makeGitCommit")⟩
        | none =>
          match d.pushToRemote env.pushRes with
          | some e =>
              ⟨(d.writeContentFromStorageToFile env (d.makeWorkingDir env.fs0).1).1,
                allStages, some (.wrapped (some e) "pushToRemote")⟩
          | none =>
              ⟨(d.writeContentFromStorageToFile env (d.makeWorkingDir env.fs0).1).1,
                allStages, none⟩

/-- `process`: `defer data.cleanup()` wraps the stage sequence, so cleanup
runs exactly once on every exit path and its outcome never replaces the
returned error. -/
def process (d : Data) (env : Env) : Outcome :=
  ⟨d.cleanup (processBody d env).fs env.removeOk,
   (processBody d env).trace ++ [.cleanup],
   (processBody d env).ret⟩

/-- The process-wide state touched by `Run`: whether `once.Do` has fired.
(`setup`'s side effects on the storage client and git identity are not
needed by any claim and are left abstract.) -/
structure GlobalState where
  onceDone : Bool

/-- The environment of one `Run` invocation: the `json.Unmarshal` result,
the outcome `setup(ctx)` would produce if executed, and the job environment. -/
structure RunEnv where
  decoded : Except GoErr Data
  setupRes : Option GoErr
  penv : Env

/-- What one `Run` invocation returned and whether it reached `process`. -/
structure RunResult where
  ret : Option GoErr
  processed : Bool

/-- `Run`: unmarshal, then `once.Do(func() { err = setup(ctx) })`, then
`process`.  When `once` has already fired, `once.Do` does not run its
function, so the named return `err` keeps its nil value from the successful
unmarshal and `process` runs. -/
def Run (g : GlobalState) (re : RunEnv) : GlobalState × RunResult :=
  match re.decoded with
  | .error e => (g, ⟨some e, false⟩)
  | .ok d =>
    if g.onceDone then (g, ⟨(process d re.penv).ret, true⟩)
    else
      match re.setupRes with
      | some e => (⟨true⟩, ⟨some e, false⟩)
      | none => (⟨true⟩, ⟨(process d re.penv).ret, true⟩)

/-- A sequence of `Run` invocations in one warm process, threading the
process-wide `once` state. -/
def runSeq (g : GlobalState) : List RunEnv → List RunResult
  | [] => []
  | re :: rest =>
    let s := Run g re
    s.2 :: runSeq s.1 rest

end Worker

namespace worker_error

/-- `worker_error.New(e, extra)`: returns the struct value `err{Err: e,
Extra: extra}` as a (necessarily non-nil) `error` interface value. -/
def New (e : Option Worker.GoErr) (extra : String) : Option Worker.GoErr :=
  some (.wrapped e extra)

/-- The `Unwrap` method: `worker_error.err` returns its `Err` field; error
types without an `Unwrap` method unwrap to nil. -/
def Unwrap : Worker.GoErr → Option Worker.GoErr
  | .wrapped e _ => e
  | _ => none

end worker_error

namespace Worker

/-- A successful external command. -/
def okExec : ExecResult := ⟨"", "", 0⟩

/-- A failing clone: git reports authentication failure on stderr, exit 128,
with nothing on stdout. -/
def cloneFailRes : ExecResult := ⟨"", "fatal: Authentication failed", 128⟩

/-- A concrete well-formed job. -/
def dEx : Data := ⟨"u1", "tok", "alice", "notes", "p1", "a.md", "u1/a.md", "update"⟩

/-- A concrete job with an empty `user_id`. -/
def dEmpty : Data := ⟨"", "tok", "alice", "notes", "p1", "a.md", "a.md", "update"⟩

/-- An environment in which every step succeeds. -/
def envOk : Env :=
  { fs0 := [],
    cloneRes := okExec,
    listObjects := fun _ => [.ok "u1/a.md", .ok "u1/dir/"],
    copyErr := fun _ => none,
    addRes := okExec,
    commitRes := okExec,
    pushRes := okExec,
    removeOk := true }

/-- Like `envOk` but the storage listing fails (for example with
`context.Canceled`, an `errors.errorString`). -/
def envListErr : Env :=
  { envOk with listObjects := fun _ => [.error (.simple "context canceled")] }

/-- Like `envOk` but the store holds three keys (one a directory marker) and
the per-object copy of the second kept key fails. -/
def envCopyFail : Env :=
  { envOk with
    listObjects := fun _ => [.ok "u1/a.md", .ok "u1/dir/", .ok "u1/b.md"],
    copyErr := fun f => if f = "u1/b.md" then some (.simple "storage: read failed") else none }

/-- Like `envOk` but the clone fails. -/
def envCloneFail : Env := { envOk with cloneRes := cloneFailRes }

/-- Like `envOk` but the workspace directory already exists. -/
def envMkdirFail : Env := { envOk with fs0 := ["/tmp/u1"] }

/-- A fresh process: `once` has not fired. -/
def gInit : GlobalState := ⟨false⟩

/-- A concrete initialization failure. -/
def eInit : GoErr := .simple "storage client init failed"

/-- A `Run` environment whose setup attempt fails. -/
def reFail : RunEnv := ⟨.ok dEx, some eInit, envOk⟩

theorem process_ret (d : Data) (env : Env) : (process d env).ret = (processBody d env).ret := rfl

theorem process_trace (d : Data) (env : Env) :
    (process d env).trace = (processBody d env).trace ++ [Stage.cleanup] := rfl

theorem process_fs (d : Data) (env : Env) :
    (process d env).fs = d.cleanup (processBody d env).fs env.removeOk := rfl

/-- Case analysis on the stage sequence: either every stage succeeded, or
exactly one stage failed, the trace stops there, and the returned error wraps
the stage's underlying error with the stage's name. -/
theorem processBody_cases (d : Data) (env : Env) :
    ((processBody d env).ret = none ∧ (processBody d env).trace = allStages) ∨
    (∃ e, (processBody d env).ret = some (.wrapped (some e) "makeWorkingDir") ∧
      (processBody d env).trace = [Stage.makeWorkingDir]) ∨
    (∃ e, (processBody d env).ret = some (.wrapped (some e) "cloneGithubRepo") ∧
      (processBody d env).trace = [Stage.makeWorkingDir, Stage.cloneGithubRepo]) ∨
    (∃ e, (processBody d env).ret = some (.wrapped (some e) "writeContentFromStorageToFile") ∧
      (processBody d env).trace =
        [Stage.makeWorkingDir, Stage.cloneGithubRepo, Stage.writeContentFromStorageToFile]) ∨
    (∃ e, (processBody d env).ret = some (.wrapped (some e) "makeGitCommit") ∧
      (processBody d env).trace =
        [Stage.makeWorkingDir, Stage.cloneGithubRepo, Stage.writeContentFromStorageToFile,
         Stage.makeGitCommit]) ∨
    (∃ e, (processBody d env).ret = some (.wrapped (some e) "pushToRemote") ∧
      (processBody d env).trace = allStages) := by
  unfold processBody
  cases h1 : (d.makeWorkingDir env.fs0).2 with
  | some e => exact Or.inr (Or.inl ⟨e, rfl, rfl⟩)
  | none =>
    cases h2 : d.cloneGithubRepo env.cloneRes with
    | some e => exact Or.inr (Or.inr (Or.inl ⟨e, rfl, rfl⟩))
    | none =>
      cases h3 : (d.writeContentFromStorageToFile env (d.makeWorkingDir env.fs0).1).2.2 with
      | some e => exact Or.inr (Or.inr (Or.inr (Or.inl ⟨e, rfl, rfl⟩)))
      | none =>
        cases h4 : d.makeGitCommit env.addRes env.commitRes with
        | some e => exact Or.inr (Or.inr (Or.inr (Or.inr (Or.inl ⟨e, rfl, rfl⟩))))
        | none =>
          cases h5 : d.pushToRemote env.pushRes with
          | some e => exact Or.inr (Or.inr (Or.inr (Or.inr (Or.inr ⟨e, rfl, rfl⟩))))
          | none => exact Or.inl ⟨rfl, rfl⟩

/-- `processBody_cases` lifted to `process` (the deferred cleanup appended). -/
theorem process_cases (d : Data) (env : Env) :
    ((process d env).ret = none ∧
      (process d env).trace = allStages ++ [Stage.cleanup]) ∨
    (∃ e, (process d env).ret = some (.wrapped (some e) "makeWorkingDir") ∧
      (process d env).trace = [Stage.makeWorkingDir, Stage.cleanup]) ∨
    (∃ e, (process d env).ret = some (.wrapped (some e) "cloneGithubRepo") ∧
      (process d env).trace = [Stage.makeWorkingDir, Stage.cloneGithubRepo, Stage.cleanup]) ∨
    (∃ e, (process d env).ret = some (.wrapped (some e) "writeContentFromStorageToFile") ∧
      (process d env).trace =
        [Stage.makeWorkingDir, Stage.cloneGithubRepo, Stage.writeContentFromStorageToFile,
         Stage.cleanup]) ∨
    (∃ e, (process d env).ret = some (.wrapped (some e) "makeGitCommit") ∧
      (process d env).trace =
        [Stage.makeWorkingDir, Stage.cloneGithubRepo, Stage.writeContentFromStorageToFile,
         Stage.makeGitCommit, Stage.cleanup]) ∨
    (∃ e, (process d env).ret = some (.wrapped (some e) "pushToRemote") ∧
      (process d env).trace = allStages ++ [Stage.cleanup]) := by
  rcases processBody_cases d env with ⟨h1, h2⟩ | ⟨e, h1, h2⟩ | ⟨e, h1, h2⟩ | ⟨e, h1, h2⟩ |
    ⟨e, h1, h2⟩ | ⟨e, h1, h2⟩
  · exact Or.inl ⟨by rw [process_ret, h1], by rw [process_trace, h2]⟩
  · exact Or.inr (Or.inl ⟨e, by rw [process_ret, h1], by rw [process_trace, h2]; rfl⟩)
  · exact Or.inr (Or.inr (Or.inl ⟨e, by rw [process_ret, h1], by rw [process_trace, h2]; rfl⟩))
  · exact Or.inr (Or.inr (Or.inr (Or.inl
      ⟨e, by rw [process_ret, h1], by rw [process_trace, h2]; rfl⟩)))
  · exact Or.inr (Or.inr (Or.inr (Or.inr (Or.inl
      ⟨e, by rw [process_ret, h1], by rw [process_trace, h2]; rfl⟩))))
  · exact Or.inr (Or.inr (Or.inr (Or.inr (Or.inr
      ⟨e, by rw [process_ret, h1], by rw [process_trace, h2]⟩))))

/-- Claim C3: for every job, the stages execute in the fixed order
`makeWorkingDir`, `cloneGithubRepo`, `writeContentFromStorageToFile`,
`makeGitCommit`, `pushToRemote`; a stage runs only if every earlier stage
succeeded; and the first stage error is returned wrapped with that stage's
identity, with no later stage executed. -/
theorem C3_stage_order (d : Data) (env : Env) :
    ((process d env).ret = none ∧
      (process d env).trace = allStages ++ [Stage.cleanup]) ∨
    (∃ e, (process d env).ret = some (.wrapped (some e) "makeWorkingDir") ∧
      (process d env).trace = [Stage.makeWorkingDir, Stage.cleanup]) ∨
    (∃ e, (process d env).ret = some (.wrapped (some e) "cloneGithubRepo") ∧
      (process d env).trace = [Stage.makeWorkingDir, Stage.cloneGithubRepo, Stage.cleanup]) ∨
    (∃ e, (process d env).ret = some (.wrapped (some e) "writeContentFromStorageToFile") ∧
      (process d env).trace =
        [Stage.makeWorkingDir, Stage.cloneGithubRepo, Stage.writeContentFromStorageToFile,
         Stage.cleanup]) ∨
    (∃ e, (process d env).ret = some (.wrapped (some e) "makeGitCommit") ∧
      (process d env).trace =
        [Stage.makeWorkingDir, Stage.cloneGithubRepo, Stage.writeContentFromStorageToFile,
         Stage.makeGitCommit, Stage.cleanup]) ∨
    (∃ e, (process d env).ret = some (.wrapped (some e) "pushToRemote") ∧
      (process d env).trace = allStages ++ [Stage.cleanup]) :=
  process_cases d env

/-- Claim C1: for every job reaching workspace creation, when `process`
returns — with success or with any stage's error — the deferred cleanup has
run exactly once; whenever the removal primitive succeeds (cleanup is
best-effort and its error is discarded), the workspace directory
`/tmp/<user_id>` and everything under it no longer exist; and the removal
outcome never replaces or alters the pipeline's returned outcome. -/
theorem C1_cleanup_all_paths (d : Data) (env : Env) :
    (process d env).trace.count Stage.cleanup = 1 ∧
    (env.removeOk = true →
      d.localWorkingDir ∉ (process d env).fs ∧
      ∀ q ∈ (process d env).fs, strStartsWith q (d.localWorkingDir ++ "/") = false) ∧
    (∀ b : Bool, (process d { env with removeOk := b }).ret = (process d env).ret) := by
  refine ⟨?_, ?_, fun b => rfl⟩
  · rcases process_cases d env with ⟨_, h2⟩ | ⟨e, _, h2⟩ | ⟨e, _, h2⟩ | ⟨e, _, h2⟩ |
      ⟨e, _, h2⟩ | ⟨e, _, h2⟩ <;> rw [h2] <;> decide
  · intro hro
    have hfs : (process d env).fs = removeAll d.localWorkingDir (processBody d env).fs := by
      rw [process_fs, Data.cleanup, hro, if_pos rfl]
    constructor
    · rw [hfs]
      intro hmem
      rcases List.mem_filter.mp hmem with ⟨_, hpred⟩
      simp at hpred
    · intro q hq
      rw [hfs] at hq
      rcases List.mem_filter.mp hq with ⟨_, hpred⟩
      simp only [Bool.not_eq_true', Bool.or_eq_false_iff] at hpred
      exact hpred.2

/-- Witness for C1 at a concrete job and environment. -/
theorem C1_witness :
    (process dEx envOk).trace.count Stage.cleanup = 1 ∧
    dEx.localWorkingDir ∉ (process dEx envOk).fs :=
  ⟨(C1_cleanup_all_paths dEx envOk).1,
   ((C1_cleanup_all_paths dEx envOk).2.1 rfl).1⟩

theorem collectFiles_append_error (pre : List String) (e : GoErr)
    (rest : List (Except GoErr String)) :
    collectFiles (pre.map Except.ok ++ Except.error e :: rest) = .error e := by
  induction pre with
  | nil => rfl
  | cons n pre ih => simp [collectFiles, ih]

theorem collectFiles_ok (names : List String) :
    collectFiles (names.map Except.ok) =
      .ok (names.filter (fun n => !(strEndsWith n "/"))) := by
  induction names with
  | nil => rfl
  | cons n names ih =>
    by_cases h : strEndsWith n "/" <;> simp [collectFiles, ih, List.filter_cons, h]

theorem copyFiles_processed (cErr : String → Option GoErr) :
    ∀ (files fsN : List String),
      (copyFiles cErr fsN files).2.1 <+: files ∧
      ((copyFiles cErr fsN files).2.2 = none → (copyFiles cErr fsN files).2.1 = files) := by
  intro files
  induction files with
  | nil => exact fun fsN => ⟨ List.nil_prefix, fun _ => rfl⟩
  | cons f rest ih =>
    intro fsN
    cases hc : cErr f with
    | some e =>
      constructor
      · simp only [copyFiles, hc]
        exact ⟨rest, rfl⟩
      · intro hnone
        simp [copyFiles, hc] at hnone
    | none =>
      obtain ⟨ihp, ihe⟩ := ih (("/tmp/" ++ f) :: fsN)
      constructor
      · simpa [copyFiles, hc, List.prefix_cons_inj] using ihp
      · intro hnone
        simp only [copyFiles, hc] at hnone ⊢
        rw [ihe hnone]

/-- Claim C4: materialization fully drains the store's enumeration before
copying anything — a listing error anywhere in the enumeration aborts the
stage with the filesystem untouched and no key processed — and on an
error-free enumeration the keys processed are exactly the yielded keys
without those ending in `"/"`, in enumeration order (the processed sequence
is always a prefix of that filtered sequence, and equals it whenever the
stage succeeds). -/
theorem C4_materialization (d : Data) (env : Env) (fs : List String) :
    (∀ (pre : List String) (e : GoErr) (rest : List (Except GoErr String)),
      env.listObjects d.storageQuery = pre.map Except.ok ++ Except.error e :: rest →
      d.writeContentFromStorageToFile env fs = (fs, [], some e)) ∧
    (∀ (names : List String), env.listObjects d.storageQuery = names.map Except.ok →
      (d.writeContentFromStorageToFile env fs).2.1 <+:
        names.filter (fun n => !(strEndsWith n "/")) ∧
      ((d.writeContentFromStorageToFile env fs).2.2 = none →
        (d.writeContentFromStorageToFile env fs).2.1 =
          names.filter (fun n => !(strEndsWith n "/")))) := by
  constructor
  · intro pre e rest h
    simp only [Data.writeContentFromStorageToFile, h, collectFiles_append_error]
  · intro names h
    simp only [Data.writeContentFromStorageToFile, h, collectFiles_ok]
    exact copyFiles_processed env.copyErr _ fs

/-- Witness for C4: a listing error aborts with nothing copied, and an
error-free two-key listing with a directory marker copies exactly the one
kept key. -/
theorem C4_witness :
    dEx.writeContentFromStorageToFile envListErr [] = ([], [], some (.simple "context canceled")) ∧
    (dEx.writeContentFromStorageToFile envOk []).2.1 =
      ["u1/a.md", "u1/dir/"].filter (fun n => !(strEndsWith n "/")) :=
  ⟨(C4_materialization dEx envListErr []).1 [] (.simple "context canceled") [] rfl,
   ((C4_materialization dEx envOk []).2 ["u1/a.md", "u1/dir/"] rfl).2 rfl⟩

theorem copyFiles_fs_mono (cErr : String → Option GoErr) :
    ∀ (files fsN : List String) (q : String), q ∈ fsN → q ∈ (copyFiles cErr fsN files).1 := by
  intro files
  induction files with
  | nil => intro fsN q hq; simpa [copyFiles] using hq
  | cons f rest ih =>
    intro fsN q hq
    cases hc : cErr f with
    | some e => simpa [copyFiles, hc] using hq
    | none =>
      simp only [copyFiles, hc]
      exact ih _ q (List.mem_cons_of_mem _ hq)

theorem copyFiles_fail (cErr : String → Option GoErr) (e : GoErr) :
    ∀ (files fsN : List String) (k : Nat), k < files.length →
      (∀ i, i < k → cErr (files.getD i "") = none) →
      cErr (files.getD k "") = some e →
      (copyFiles cErr fsN files).2.2 = some e ∧
      (copyFiles cErr fsN files).2.1 = files.take (k + 1) ∧
      (∀ i, i < k → ("/tmp/" ++ files.getD i "") ∈ (copyFiles cErr fsN files).1) := by
  intro files
  induction files with
  | nil => intro fsN k hk; simp at hk
  | cons f rest ih =>
    intro fsN k hk hok hf
    cases k with
    | zero =>
      have hf0 : cErr f = some e := by simpa using hf
      refine ⟨by simp [copyFiles, hf0], by simp [copyFiles, hf0], ?_⟩
      intro i hi
      exact absurd hi (Nat.not_lt_zero i)
    | succ k =>
      have h0 : cErr f = none := by simpa using hok 0 (Nat.succ_pos k)
      have hok2 : ∀ i, i < k → cErr (rest.getD i "") = none := by
        intro i hi
        simpa using hok (i + 1) (Nat.succ_lt_succ hi)
      have hf2 : cErr (rest.getD k "") = some e := by simpa using hf
      have hk2 : k < rest.length := by simpa using hk
      obtain ⟨ha, hb, hm⟩ := ih (("/tmp/" ++ f) :: fsN) k hk2 hok2 hf2
      refine ⟨by simpa [copyFiles, h0] using ha, ?_, ?_⟩
      · simp only [copyFiles, h0, List.take_succ_cons]
        rw [hb]
      · intro i hi
        cases i with
        | zero =>
          simp only [copyFiles, h0, List.getD_cons_zero]
          exact copyFiles_fs_mono cErr rest _ _ (List.mem_cons_self _ _)
        | succ i =>
          have := hm i (Nat.lt_of_succ_lt_succ hi)
          simpa [copyFiles, h0] using this

/-- Claim C5: when the clean listing yields keys whose k-th kept key fails to
copy, the files for the earlier kept keys are on local disk when the stage
returns (no rollback inside the materialization stage), and neither the
commit stage nor the push stage runs for that job; the job fails with the
copy error wrapped as the materialization stage's error. -/
theorem C5_no_rollback (d : Data) (env : Env) (names : List String)
    (k : Nat) (e : GoErr)
    (hm : d.localWorkingDir ∉ env.fs0)
    (hc : env.cloneRes.exitCode = 0)
    (hl : env.listObjects d.storageQuery = names.map Except.ok)
    (hk : k < (names.filter (fun n => !(strEndsWith n "/"))).length)
    (hok : ∀ i, i < k →
      env.copyErr ((names.filter (fun n => !(strEndsWith n "/"))).getD i "") = none)
    (hf : env.copyErr ((names.filter (fun n => !(strEndsWith n "/"))).getD k "") = some e) :
    (∀ i, i < k →
      ("/tmp/" ++ (names.filter (fun n => !(strEndsWith n "/"))).getD i "") ∈
        (d.writeContentFromStorageToFile env (d.localWorkingDir :: env.fs0)).1) ∧
    (process d env).ret = some (.wrapped (some e) "writeContentFromStorageToFile") ∧
    Stage.makeGitCommit ∉ (process d env).trace ∧
    Stage.pushToRemote ∉ (process d env).trace := by
  have hwrite : d.writeContentFromStorageToFile env (d.localWorkingDir :: env.fs0) =
      copyFiles env.copyErr (d.localWorkingDir :: env.fs0)
        (names.filter (fun n => !(strEndsWith n "/"))) := by
    simp only [Data.writeContentFromStorageToFile, hl, collectFiles_ok]
  obtain ⟨ha, _, hmem⟩ := copyFiles_fail env.copyErr e
    (names.filter (fun n => !(strEndsWith n "/"))) (d.localWorkingDir :: env.fs0) k hk hok hf
  have hmk1 : (d.makeWorkingDir env.fs0).1 = d.localWorkingDir :: env.fs0 := by
    simp [Data.makeWorkingDir, hm]
  have hmk2 : (d.makeWorkingDir env.fs0).2 = none := by
    simp [Data.makeWorkingDir, hm]
  have hcl : d.cloneGithubRepo env.cloneRes = none := by
    simp [Data.cloneGithubRepo, gitOutput, hc]
  have hbody : processBody d env =
      ⟨(d.writeContentFromStorageToFile env (d.localWorkingDir :: env.fs0)).1,
        [Stage.makeWorkingDir, Stage.cloneGithubRepo, Stage.writeContentFromStorageToFile],
        some (.wrapped (some e) "writeContentFromStorageToFile")⟩ := by
    unfold processBody
    rw [hmk2, hcl, hmk1, hwrite, ha]
  have htr : (process d env).trace =
      [Stage.makeWorkingDir, Stage.cloneGithubRepo, Stage.writeContentFromStorageToFile,
       Stage.cleanup] := by
    rw [process_trace, hbody]
    rfl
  refine ⟨?_, ?_, ?_, ?_⟩
  · intro i hi
    rw [hwrite]
    exact hmem i hi
  · rw [process_ret, hbody]
  · rw [htr]
    simp
  · rw [htr]
    simp

/-- Witness for C5: with keys `u1/a.md`, `u1/dir/`, `u1/b.md` and a copy
failure on `u1/b.md`, the file for `u1/a.md` is on disk when the stage
returns and no commit or push stage runs. -/
theorem C5_witness :
    ("/tmp/" ++ (["u1/a.md", "u1/dir/", "u1/b.md"].filter
        (fun n => !(strEndsWith n "/"))).getD 0 "") ∈
      (dEx.writeContentFromStorageToFile envCopyFail
        (dEx.localWorkingDir :: envCopyFail.fs0)).1 ∧
    (process dEx envCopyFail).ret =
      some (.wrapped (some (.simple "storage: read failed")) "writeContentFromStorageToFile") ∧
    Stage.makeGitCommit ∉ (process dEx envCopyFail).trace := by
  obtain ⟨h1, h2, h3, _⟩ := C5_no_rollback dEx envCopyFail
    ["u1/a.md", "u1/dir/", "u1/b.md"] 1 (.simple "storage: read failed")
    (by simp [dEx, envCopyFail, envOk, Data.localWorkingDir]) rfl rfl (by decide)
    (fun i hi => by
      have h0 : i = 0 := Nat.lt_one_iff.mp hi
      subst h0
      rfl)
    rfl
  exact ⟨h1 0 (by decide), h2, h3⟩

/-- Claim C7: workspace creation fails whenever `/tmp/<user_id>` already
exists — `os.Mkdir` reports a filesystem error, the job aborts at that stage
with no later stage executed, and the existing directory is neither
overwritten nor merged (the filesystem is unchanged when the stage returns),
so a second job for the same user starting before the first's cleanup fails
at creation rather than sharing state. -/
theorem C7_mkdir_exists (d : Data) (env : Env) (h : d.localWorkingDir ∈ env.fs0) :
    (∃ e, (process d env).ret = some (.wrapped (some e) "makeWorkingDir")) ∧
    (process d env).trace = [Stage.makeWorkingDir, Stage.cleanup] ∧
    (processBody d env).fs = env.fs0 := by
  have hmk2 : (d.makeWorkingDir env.fs0).2 =
      some (.pathError "mkdir" d.localWorkingDir 17 "file exists") := by
    simp [Data.makeWorkingDir, h]
  have hmk1 : (d.makeWorkingDir env.fs0).1 = env.fs0 := by
    simp [Data.makeWorkingDir, h]
  have hbody : processBody d env =
      ⟨env.fs0, [Stage.makeWorkingDir],
        some (.wrapped (some (.pathError "mkdir" d.localWorkingDir 17 "file exists"))
          "makeWorkingDir")⟩ := by
    unfold processBody
    rw [hmk2, hmk1]
  refine ⟨⟨.pathError "mkdir" d.localWorkingDir 17 "file exists", ?_⟩, ?_, ?_⟩
  · rw [process_ret, hbody]
  · rw [process_trace, hbody]
    rfl
  · rw [hbody]

/-- Witness for C7: a leftover `/tmp/u1` makes the job fail at creation. -/
theorem C7_witness :
    (∃ e, (process dEx envMkdirFail).ret = some (.wrapped (some e) "makeWorkingDir")) ∧
    (process dEx envMkdirFail).trace = [Stage.makeWorkingDir, Stage.cleanup] := by
  obtain ⟨h1, h2, _⟩ := C7_mkdir_exists dEx envMkdirFail (by decide)
  exact ⟨h1, h2⟩

/-- Claim C6 (amended): the clone stage invokes git with URL exactly
`https://<token>@github.com/<owner>/<repo>.git` (the owner being the job's
GitHub username) and working directory the workspace path; any non-zero exit
surfaces as a wrapped error carrying the captured standard output of the
tool (the captured standard error travels on the underlying exec error, not
in the carried string). -/
theorem C6_clone_invocation (d : Data) (res : ExecResult) (h : res.exitCode ≠ 0) :
    d.cloneCmd.args = ["clone",
      "https://" ++ d.GithubToken ++ "@github.com/" ++ d.GithubUsername ++ "/" ++
        d.RepoName ++ ".git"] ∧
    d.cloneCmd.dir = d.localWorkingDir ∧
    d.cloneGithubRepo res =
      some (.wrapped (some (.exitError res.exitCode res.stderr)) res.stdout) := by
  refine ⟨rfl, rfl, ?_⟩
  simp [Data.cloneGithubRepo, gitOutput, h]

/-- Witness for C6 at a concrete job and a failing clone. -/
theorem C6_witness :
    dEx.cloneCmd.args = ["clone", "https://tok@github.com/alice/notes.git"] ∧
    dEx.cloneCmd.dir = "/tmp/u1" ∧
    dEx.cloneGithubRepo cloneFailRes =
      some (.wrapped (some (.exitError 128 "fatal: Authentication failed")) "") := by
  obtain ⟨h1, h2, h3⟩ := C6_clone_invocation dEx cloneFailRes (by decide)
  exact ⟨h1, h2, h3⟩

/-- Counterexample to C6 as stated: with a clone failing with empty stdout
and diagnostics on stderr, the carried string is the captured stdout alone
(`cmd.Output()`), not the combined stdout-and-stderr output. -/
theorem C6_counterexample :
    ¬ (dEx.cloneGithubRepo cloneFailRes =
        some (GoErr.wrapped (some (GoErr.exitError 128 "fatal: Authentication failed"))
          (cloneFailRes.stdout ++ cloneFailRes.stderr))) := by
  intro hcl
  have hv : dEx.cloneGithubRepo cloneFailRes =
      some (GoErr.wrapped (some (GoErr.exitError 128 "fatal: Authentication failed")) "") := rfl
  rw [hv] at hcl
  injection hcl with h1
  injection h1 with h2 h3
  exact absurd h3 (by decide)

/-- Claim C2 (amended): only the `Run` invocation that actually executes the
single in-flight setup attempt observes the initialization failure and
returns it without processing; any later `Run` invocation in the same
process finds `once` already fired, observes no setup error (its local `err`
stays nil), and proceeds to process its job against the uninitialized
process state. -/
theorem C2_once_error_capture (g : GlobalState) (re1 re2 : RunEnv) (d1 d2 : Data)
    (e : GoErr)
    (hg : g.onceDone = false)
    (h1 : re1.decoded = .ok d1)
    (hs : re1.setupRes = some e)
    (h2 : re2.decoded = .ok d2) :
    (Run g re1).2.ret = some e ∧
    (Run g re1).2.processed = false ∧
    (Run (Run g re1).1 re2).2.processed = true ∧
    (Run (Run g re1).1 re2).2.ret = (process d2 re2.penv).ret := by
  have hr1 : Run g re1 = (⟨true⟩, ⟨some e, false⟩) := by
    simp [Run, h1, hs, hg]
  have hr2 : Run (⟨true⟩ : GlobalState) re2 = (⟨true⟩, ⟨(process d2 re2.penv).ret, true⟩) := by
    simp [Run, h2]
  rw [hr1]
  exact ⟨rfl, rfl, by rw [hr2], by rw [hr2]⟩

/-- Witness for C2 (amended) at a concrete failing first invocation. -/
theorem C2_witness :
    (Run gInit reFail).2.ret = some eInit ∧
    (Run gInit reFail).2.processed = false ∧
    (Run (Run gInit reFail).1 reFail).2.processed = true ∧
    (Run (Run gInit reFail).1 reFail).2.ret = (process dEx reFail.penv).ret :=
  C2_once_error_capture gInit reFail reFail dEx dEx eInit rfl rfl rfl rfl

/-- Counterexample to C2 as stated: in a two-invocation sequence whose first
setup attempt fails, the first invocation returns the initialization error
and does not process, but the second invocation does not return the
initialization error — it proceeds to process its job. -/
theorem C2_counterexample :
    (runSeq gInit [reFail, reFail]).getD 0 ⟨none, false⟩ = ⟨some eInit, false⟩ ∧
    ((runSeq gInit [reFail, reFail]).getD 1 ⟨none, false⟩).processed = true ∧
    ((runSeq gInit [reFail, reFail]).getD 1 ⟨none, false⟩).ret = none ∧
    (none : Option GoErr) ≠ some eInit := by
  refine ⟨rfl, rfl, rfl, by simp⟩

theorem strData_append (a b : String) : (a ++ b).data = a.data ++ b.data := rfl

/-- For `worker_error.err` with a non-nil cause and a non-empty extra whose
JSON escaping is trivial, the rendered message ends with the quoted extra
field. -/
theorem extra_tail (cause : GoErr) (s : String) (hs : ¬ s = "") (hesc : jsonEscape s = s) :
    ("\"extra\":\"" ++ s ++ "\"\x7d").data <:+
      (goErrorText (GoErr.wrapped (some cause) s)).data := by
  have hmsg : goErrorText (GoErr.wrapped (some cause) s) =
      ("\x7b\"err\":" ++ jsonOfGoErr cause ++ ",") ++
        ("\"extra\":" ++ ("\"" ++ jsonEscape s ++ "\"") ++ "\x7d") := by
    simp [goErrorText, jsonOfGoErr, hs, jsonStringLit]
  have ht : ("\"extra\":\"" ++ s ++ "\"\x7d").data =
      ("\"extra\":" ++ ("\"" ++ jsonEscape s ++ "\"") ++ "\x7d").data := by
    rw [hesc]
    simp only [strData_append]
    simp [List.append_assoc]
  rw [hmsg, ht, strData_append]
  exact List.suffix_append _ _

/-- Claim C8 (amended): every failed job returns a single wrapped error
whose rendered message identifies the failing stage's name (the message ends
with the JSON field `"extra":"<stageName>"`); the underlying cause is
embedded as the JSON rendering of its exported fields, which does not in
general contain the cause's error text (see the counterexample). -/
theorem C8_stage_in_message (d : Data) (env : Env) (er : GoErr)
    (h : (process d env).ret = some er) :
    ∃ c s, er = GoErr.wrapped (some c) s ∧
      s ∈ (["makeWorkingDir", "cloneGithubRepo", "writeContentFromStorageToFile",
            "makeGitCommit", "pushToRemote"] : List String) ∧
      ("\"extra\":\"" ++ s ++ "\"\x7d").data <:+ (goErrorText er).data := by
  rcases process_cases d env with ⟨h1, _⟩ | ⟨e, h1, _⟩ | ⟨e, h1, _⟩ | ⟨e, h1, _⟩ |
    ⟨e, h1, _⟩ | ⟨e, h1, _⟩
  · rw [h1] at h
    exact absurd h (by simp)
  · rw [h1] at h
    injection h with h
    subst h
    exact ⟨e, _, rfl, by simp, extra_tail e _ (by decide) rfl⟩
  · rw [h1] at h
    injection h with h
    subst h
    exact ⟨e, _, rfl, by simp, extra_tail e _ (by decide) rfl⟩
  · rw [h1] at h
    injection h with h
    subst h
    exact ⟨e, _, rfl, by simp, extra_tail e _ (by decide) rfl⟩
  · rw [h1] at h
    injection h with h
    subst h
    exact ⟨e, _, rfl, by simp, extra_tail e _ (by decide) rfl⟩
  · rw [h1] at h
    injection h with h
    subst h
    exact ⟨e, _, rfl, by simp, extra_tail e _ (by decide) rfl⟩

/-- Witness for C8 (amended) at a concrete failing job. -/
theorem C8_witness :
    ∃ c s,
      GoErr.wrapped (some (GoErr.simple "context canceled")) "writeContentFromStorageToFile" =
        GoErr.wrapped (some c) s ∧
      s ∈ (["makeWorkingDir", "cloneGithubRepo", "writeContentFromStorageToFile",
            "makeGitCommit", "pushToRemote"] : List String) ∧
      ("\"extra\":\"" ++ s ++ "\"\x7d").data <:+
        (goErrorText (GoErr.wrapped (some (GoErr.simple "context canceled"))
          "writeContentFromStorageToFile")).data :=
  C8_stage_in_message dEx envListErr
    (GoErr.wrapped (some (GoErr.simple "context canceled")) "writeContentFromStorageToFile") rfl

/-- Counterexample to C8 as stated: a storage-listing failure with cause
`context.Canceled` (an `errors.errorString`, no exported fields) produces
the message `{"err":{},"extra":"writeContentFromStorageToFile"}` — it names
the stage but does not contain the underlying error text. -/
theorem C8_counterexample :
    (process dEx envListErr).ret =
      some (GoErr.wrapped (some (GoErr.simple "context canceled"))
        "writeContentFromStorageToFile") ∧
    ¬ (("context canceled").data <:+:
        (goErrorText (GoErr.wrapped (some (GoErr.simple "context canceled"))
          "writeContentFromStorageToFile")).data) :=
  ⟨rfl, by decide⟩

/-- Claim C9: no decoded field is validated — with an empty `user_id` the
workspace path is exactly `"/tmp/"` (the fixed local root itself), the
storage listing prefix is the empty string (a prefix of every key in the
bucket), and cleanup invokes recursive removal on `"/tmp/"`. -/
theorem C9_no_field_validation (d : Data) (h : d.UserID = "") :
    d.localWorkingDir = "/tmp/" ∧
    d.storageQuery = "" ∧
    (∀ k : String, strStartsWith k d.storageQuery = true) ∧
    (∀ (fs : List String) (removeOk : Bool),
      d.cleanup fs removeOk = if removeOk then removeAll "/tmp/" fs else fs) := by
  have hw : d.localWorkingDir = "/tmp/" := by
    unfold Data.localWorkingDir
    rw [h]
    rfl
  refine ⟨hw, ?_, ?_, ?_⟩
  · unfold Data.storageQuery
    exact h
  · intro k
    unfold strStartsWith Data.storageQuery
    rw [h]
    obtain ⟨l⟩ := k
    cases l <;> rfl
  · intro fs removeOk
    unfold Data.cleanup
    rw [hw]

/-- Witness for C9 at a concrete job with empty `user_id`. -/
theorem C9_witness :
    dEmpty.localWorkingDir = "/tmp/" ∧
    dEmpty.storageQuery = "" ∧
    strStartsWith "any/key.txt" dEmpty.storageQuery = true := by
  obtain ⟨h1, h2, h3, _⟩ := C9_no_field_validation dEmpty rfl
  exact ⟨h1, h2, h3 "any/key.txt"⟩

/-- Claim C10: for every error `e` and string `s`, `worker_error.New(e, s)`
is a non-nil error value and unwrapping it returns exactly `e`, so the
original cause is always recoverable from a stage-wrapped error. -/
theorem C10_new_unwrap (e : Option GoErr) (s : String) :
    worker_error.New e s ≠ none ∧
    ∃ g, worker_error.New e s = some g ∧ worker_error.Unwrap g = e :=
  ⟨by simp [worker_error.New], ⟨.wrapped e s, rfl, rfl⟩⟩

end Worker
